import Mathlib

/-!
Verification of the workbook history subsystem (snapshots, manifest,
locking, restore) of the xlsform-ai repository, shallowly embedded from
`src/xlsform_ai/templates/base/scripts/history_manager.py` and
`src/xlsform_ai/templates/base/scripts/form_history.py`.

The filesystem is modelled explicitly: the working document is an optional
byte string, the snapshot store is an association list from snapshot names
to byte strings (a later entry with the same key shadows an earlier one,
which is the overwrite semantics of `shutil.copy2`), the manifest is the
list of parsed JSON records in file order (oldest first), and the lock file
is an optional string holding its recorded contents.  SHA-256 is modelled
as an arbitrary function from bytes to strings, which is faithful because
the code only ever uses the fact that the digest is a deterministic
function of the file's bytes.  Wall-clock timestamps and the
timestamp-plus-uuid revision identifiers generated by the code are passed
in as parameters, modelling the nondeterminism of the environment.
-/

namespace XlsformHistory

/-- Bytes of a file, as in Python `bytes`. -/
abbrev Bytes := List Nat

/-- The digest function: SHA-256 is some fixed deterministic function of the
bytes; every theorem quantifies over it. -/
abbrev Hash := Bytes → String

/-- One parsed manifest record (a JSON object in `history.jsonl`).  Python
stores records as dicts; fields absent from a given record are modelled by
their default values.  `timestamp` is a logical UTC clock value standing in
for the ISO-8601 string produced by `_utc_now_iso`. -/
structure Record where
  record_type : String := ""
  timestamp : Nat := 0
  revision_id : String := ""
  action_type : String := ""
  description : String := ""
  details : String := ""
  command : String := ""
  agent : String := ""
  workbook : String := ""
  snapshot_path : String := ""
  source_sha256 : String := ""
  snapshot_sha256 : String := ""
  method : String := ""
  restored_from_revision : String := ""
  restored_sha256 : String := ""
  pre_restore_revision : String := ""
deriving DecidableEq

/-- Lookup in the snapshot store: first entry whose key matches, mirroring
that a path resolves to the most recently written file contents (new writes
are consed on the front). -/
def getFile (fs : List (String × Bytes)) (k : String) : Option Bytes :=
  (fs.find? (fun p => p.1 == k)).map (fun p => p.2)

/-- `WorkbookHistoryManager.get_snapshot`: first manifest record that is a
snapshot with the requested revision id (linear scan in file order). -/
def get_snapshot (m : List Record) (rid : String) : Option Record :=
  m.find? (fun r => r.record_type == "snapshot" && r.revision_id == rid)

/-- The predicate `record.get("record_type") == "snapshot"` used by
`list_snapshots`. -/
def isSnap (r : Record) : Bool :=
  r.record_type == "snapshot"

/-- `WorkbookHistoryManager.list_snapshots`: filter the manifest to snapshot
records, reverse to newest-first, and truncate with `records[: max(limit, 1)]`.
`limit` is a Python `int`, hence `Int` here. -/
def list_snapshots (m : List Record) (limit : Int) : List Record :=
  ((m.filter isSnap).reverse).take (max limit 1).toNat

/-- `WorkbookHistoryManager.get_latest_snapshot`: walk
`list_snapshots(limit=500)` newest-first; with `include_pre_restore` return
the first record, otherwise the first record whose `action_type` is not
`"pre_restore"`. -/
def get_latest_snapshot (m : List Record) (include_pre_restore : Bool) : Option Record :=
  (list_snapshots m 500).find?
    (fun r => include_pre_restore || !(r.action_type == "pre_restore"))

/-- Failures raised by the manager, one constructor per raise site. -/
inductive Err where
  | documentNotFound (msg : String)
  | revisionNotFound (msg : String)
  | snapshotMissing (msg : String)
  | lockTimeout (msg : String)
deriving DecidableEq

/-- The state a `WorkbookHistoryManager` acts on: the working document
(`xlsform_path`; `none` when the file does not exist), its filename, the
snapshot store, the parsed manifest in file order, the lock file contents
(`none` when no lock file exists), and the in-memory bytes of the workbook
when an external application currently has it open (`none` when the
Live-Document Bridge finds no open book). -/
structure Sys where
  doc : Option Bytes := none
  docName : String := "survey.xlsx"
  snaps : List (String × Bytes) := []
  manifest : List Record := []
  lock : Option String := none
  live : Option Bytes := none
deriving DecidableEq

/-- `WorkbookHistoryManager.create_snapshot`.  `now` is the record timestamp
and `rid` the freshly generated `{timestamp}-{uuid hex}` revision id, both
supplied by the environment.  Raises document-not-found before touching
anything when the target file is absent; otherwise hashes the source, writes
the snapshot (from the open workbook via `SaveCopyAs` when one exists, else
a plain `shutil.copy2`), hashes the written snapshot file, and appends the
record. -/
def create_snapshot (h : Hash) (now : Nat) (rid : String)
    (action_type description details cmd agent : String) (s : Sys) :
    Except Err Record × Sys :=
  match s.doc with
  | none => (.error (.documentNotFound ("XLSForm file not found: " ++ s.docName)), s)
  | some docBytes =>
    let snapshot_name := rid ++ "__" ++ s.docName
    let source_hash := h docBytes
    let capture : Bytes × String :=
      match s.live with
      | some liveBytes => (liveBytes, "excel_savecopyas")
      | none => (docBytes, "copy2")
    let snapshot_hash := h capture.1
    let record : Record :=
      { record_type := "snapshot", timestamp := now, revision_id := rid,
        action_type := action_type, description := description,
        details := details, command := cmd, agent := agent,
        workbook := s.docName, snapshot_path := snapshot_name,
        source_sha256 := source_hash, snapshot_sha256 := snapshot_hash,
        method := capture.2 }
    (.ok record,
      { s with snaps := (snapshot_name, capture.1) :: s.snaps,
               manifest := s.manifest ++ [record] })

/-- `WorkbookHistoryManager.append_event`: build an event record, merge the
caller's `extra` keys into it (`record.update(extra)`), and append it. -/
def append_event (now : Nat) (action_type description details : String)
    (extra : Record → Record) (s : Sys) : Record × Sys :=
  let record := extra
    { record_type := "event", timestamp := now, action_type := action_type,
      description := description, details := details, workbook := s.docName }
  (record, { s with manifest := s.manifest ++ [record] })

/-- The aggregate returned by `restore_snapshot`. -/
structure RestoreResult where
  restored_from : Record
  restore_event : Record
  pre_restore_snapshot : Option Record
deriving DecidableEq

/-- `WorkbookHistoryManager.restore_snapshot`.  Looks up the revision
(ValueError when absent), checks the snapshot file exists
(FileNotFoundError when not), optionally takes a `pre_restore` safety
snapshot of the current document, overwrites the document from the snapshot
file — closing and reopening the workbook when an application has it open —
hashes the restored file, and appends the restore event.  `nowPre`/`preRid`
stamp the safety snapshot and `nowEvt` the event. -/
def restore_snapshot (h : Hash) (nowPre nowEvt : Nat) (preRid : String)
    (rid : String) (create_pre_restore_snapshot : Bool) (s : Sys) :
    Except Err RestoreResult × Sys :=
  match get_snapshot s.manifest rid with
  | none => (.error (.revisionNotFound ("Revision not found: " ++ rid)), s)
  | some snapshot_record =>
    match getFile s.snaps snapshot_record.snapshot_path with
    | none =>
      (.error (.snapshotMissing
        ("Snapshot file missing: " ++ snapshot_record.snapshot_path)), s)
    | some _ =>
      let step : Except Err (Option Record) × Sys :=
        if create_pre_restore_snapshot && s.doc.isSome then
          match create_snapshot h nowPre preRid "pre_restore"
              ("Pre-restore safety snapshot before restoring " ++ rid)
              ("Target revision: " ++ rid) "/xlsform-revert" "" s with
          | (.ok r, s1) => (.ok (some r), s1)
          | (.error e, s1) => (.error e, s1)
        else (.ok none, s)
      match step with
      | (.error e, s1) => (.error e, s1)
      | (.ok pre_restore, s1) =>
        match getFile s1.snaps snapshot_record.snapshot_path with
        | none =>
          (.error (.snapshotMissing
            ("Snapshot file missing: " ++ snapshot_record.snapshot_path)), s1)
        | some snapBytes =>
          let bridge : Option Bytes × String :=
            match s1.live with
            | some _ => (some snapBytes, "close_copy_reopen")
            | none => (s1.live, "copy2")
          let s2 := { s1 with doc := some snapBytes, live := bridge.1 }
          let restored_hash := h snapBytes
          let ev := append_event nowEvt "restore"
            ("Restored workbook from revision " ++ rid)
            ("Snapshot: " ++ snapshot_record.snapshot_path)
            (fun r =>
              { r with restored_from_revision := rid,
                       restored_sha256 := restored_hash,
                       method := bridge.2,
                       pre_restore_revision :=
                         match pre_restore with
                         | some p => p.revision_id
                         | none => "" }) s2
          (.ok ⟨snapshot_record, ev.1, pre_restore⟩, ev.2)

/-- Result of the `acquire_lock` polling loop.  `attempt` counts the
iterations of the `while True` loop; attempt `k` happens after `k` sleeps of
`poll_seconds`, so its elapsed time is `k * poll` ticks.  `diverged` marks
the (never reached when `0 < poll`) exhaustion of the recursion fuel,
standing for non-termination of the busy loop. -/
inductive AcqOutcome where
  | acquired (attempt : Nat)
  | timedOut (attempt : Nat) (message : String)
  | diverged
deriving DecidableEq

/-- The message of the `TimeoutError` raised by `acquire_lock`, which embeds
the lock path and the current contents of the lock file. -/
def timeoutMessage (timeout : Nat) (lockPath details : String) : String :=
  "Could not acquire workbook lock within " ++ toString timeout ++
    ". Lock: " ++ lockPath ++ ". Details: " ++ details

/-- The body of `acquire_lock`'s `while True` loop.  `env k` is the contents
of the lock file as observed by attempt `k` (lock files come and go under
the feet of this process, so each attempt may see a different state):
`none` means `os.open(..., O_CREAT | O_EXCL)` succeeds, `some details`
means it raises `FileExistsError` and a later `read_text` yields
`details`.  On contention the loop times out once the elapsed `k * poll`
reaches `timeout`, else sleeps and retries with one unit of fuel spent. -/
def acquireAux (env : Nat → Option String) (lockPath : String)
    (timeout poll : Nat) : Nat → Nat → AcqOutcome
  | k, 0 =>
    match env k with
    | none => .acquired k
    | some details =>
      if timeout ≤ k * poll then
        .timedOut k (timeoutMessage timeout lockPath details)
      else .diverged
  | k, fuel + 1 =>
    match env k with
    | none => .acquired k
    | some details =>
      if timeout ≤ k * poll then
        .timedOut k (timeoutMessage timeout lockPath details)
      else acquireAux env lockPath timeout poll (k + 1) fuel

/-- `WorkbookHistoryManager.acquire_lock` as observed through the lock-file
states `env`: run the loop from attempt 0 with enough fuel that, for
positive `poll`, the timeout check fires before the fuel runs dry. -/
def acquire_outcome (env : Nat → Option String) (lockPath : String)
    (timeout poll : Nat) : AcqOutcome :=
  acquireAux env lockPath timeout poll 0 (timeout / poll + 1)

/-- The lock path used by every manager of one history directory. -/
def lockPathName : String := ".xlsform-ai/history/.edit.lock"

/-- `acquire_lock` run against a quiescent system (no other process touches
the lock file while this call runs, so every attempt observes `s.lock`):
on success the lock file holds this caller's JSON payload `body`; a timeout
raises and writes nothing. -/
def acquire_lock (s : Sys) (body : String) (timeout poll : Nat) :
    Except Err Unit × Sys :=
  match acquire_outcome (fun _ => s.lock) lockPathName timeout poll with
  | .acquired _ => (.ok (), { s with lock := some body })
  | .timedOut _ msg => (.error (.lockTimeout msg), s)
  | .diverged => (.error (.lockTimeout "<loop does not terminate>"), s)

/-- `WorkbookHistoryManager.release_lock`: unlink the lock file when it
exists, swallowing every exception; no ownership check is made. -/
def release_lock (s : Sys) : Except Err Unit × Sys :=
  (.ok (), { s with lock := none })

/-- The string Python obtains when formatting the caught exception. -/
def errMessage : Err → String
  | .documentNotFound m => m
  | .revisionNotFound m => m
  | .snapshotMissing m => m
  | .lockTimeout m => m

/-- What a CLI command produced: exit code, printed lines, final state. -/
structure CmdOut where
  exitCode : Nat
  output : List String
  state : Sys
deriving DecidableEq

/-- The metadata lines printed by `_restore_by_revision` under `--dry-run`. -/
def dryRunLines (r : Record) : List String :=
  ["Dry run only. Restore target:",
   "  revision_id: " ++ r.revision_id,
   "  timestamp: " ++ toString r.timestamp,
   "  action_type: " ++ r.action_type,
   "  description: " ++ r.description,
   "  snapshot_path: " ++ r.snapshot_path]

/-- `form_history._restore_by_revision`: look up the revision; under
`--dry-run` print its metadata and stop; otherwise take the scoped edit
lock (default timeout of 30 s polled at 0.25 s, i.e. 120 ticks of 1), run
`restore_snapshot(revision_id, create_pre_restore_snapshot=True)` inside
it, release on every exit path, and report success or the caught
exception.  `body` is the lock payload; `h`, `nowPre`, `nowEvt`, `preRid`
feed the restore as in `restore_snapshot`. -/
def restore_by_revision (h : Hash) (nowPre nowEvt : Nat) (preRid body : String)
    (s : Sys) (rid : String) (dry_run : Bool) : CmdOut :=
  match get_snapshot s.manifest rid with
  | none => ⟨1, ["Error: Revision not found: " ++ rid], s⟩
  | some snapshot =>
    if dry_run then ⟨0, dryRunLines snapshot, s⟩
    else
      match acquire_lock s body 120 1 with
      | (.error e, s1) => ⟨1, ["Error: Restore failed: " ++ errMessage e], s1⟩
      | (.ok _, s1) =>
        match restore_snapshot h nowPre nowEvt preRid rid true s1 with
        | (.error e, s2) =>
          ⟨1, ["Error: Restore failed: " ++ errMessage e], (release_lock s2).2⟩
        | (.ok result, s2) =>
          let s3 := (release_lock s2).2
          ⟨0,
            (match result.pre_restore_snapshot with
             | some pre => ["[OK] Pre-restore snapshot: " ++ pre.revision_id]
             | none => []) ++ ["[OK] Restored to revision: " ++ rid],
            s3⟩

/-- `form_history.cmd_restore`: requires the XLSForm file to exist, then
delegates to `_restore_by_revision` with the `--revision` argument. -/
def cmd_restore (h : Hash) (nowPre nowEvt : Nat) (preRid body : String)
    (s : Sys) (rid : String) (dry_run : Bool) : CmdOut :=
  match s.doc with
  | none => ⟨1, ["Error: XLSForm file not found: " ++ s.docName], s⟩
  | some _ => restore_by_revision h nowPre nowEvt preRid body s rid dry_run

/-- `form_history.cmd_restore_last`: restore the latest snapshot that is not
a `pre_restore` one. -/
def cmd_restore_last (h : Hash) (nowPre nowEvt : Nat) (preRid body : String)
    (s : Sys) (dry_run : Bool) : CmdOut :=
  match s.doc with
  | none => ⟨1, ["Error: XLSForm file not found: " ++ s.docName], s⟩
  | some _ =>
    match get_latest_snapshot s.manifest false with
    | none => ⟨1, ["No restorable snapshots found."], s⟩
    | some latest =>
      restore_by_revision h nowPre nowEvt preRid body s latest.revision_id dry_run

/-- `form_history.cmd_undo`: restore the latest snapshot of any kind,
`pre_restore` ones included. -/
def cmd_undo (h : Hash) (nowPre nowEvt : Nat) (preRid body : String)
    (s : Sys) (dry_run : Bool) : CmdOut :=
  match s.doc with
  | none => ⟨1, ["Error: XLSForm file not found: " ++ s.docName], s⟩
  | some _ =>
    match get_latest_snapshot s.manifest true with
    | none => ⟨1, ["No snapshots found for undo."], s⟩
    | some latest =>
      restore_by_revision h nowPre nowEvt preRid body s latest.revision_id dry_run

/-- Where one of two competing processes stands in the lock protocol of
`acquire_lock`/`release_lock` used through `edit_lock`: still polling for
the lock, holding it, failed with `TimeoutError`, or done after releasing. -/
inductive PStat where
  | trying
  | holding
  | timedOutStat
  | released
deriving DecidableEq

/-- Shared state of two processes contending for one target document's lock
file: who owns the lock file (if anyone) and each process's status. -/
structure LockSys where
  lockOwner : Option (Fin 2)
  stat : Fin 2 → PStat

/-- Both processes start inside `acquire_lock` with no lock file present. -/
def initLockSys : LockSys := ⟨none, fun _ => .trying⟩

/-- Interleaved steps of the two processes.  One loop iteration of
`acquire_lock` is atomic exactly where the OS makes it so:
`os.open(O_CREAT | O_EXCL)` atomically tests for the lock file and creates
it.  A contending iteration either sleeps (`poll`) or raises
`TimeoutError` (`timeoutFail`) and in either case writes nothing.
`releaseDone` is the unlink performed by `edit_lock`'s `finally` block,
which runs only in the process whose `acquire_lock` returned, i.e. the
holder. -/
inductive LockStep : LockSys → LockSys → Prop where
  | acquireOk (s : LockSys) (i : Fin 2) :
      s.stat i = .trying → s.lockOwner = none →
      LockStep s ⟨some i, Function.update s.stat i .holding⟩
  | poll (s : LockSys) (i j : Fin 2) :
      s.stat i = .trying → s.lockOwner = some j →
      LockStep s s
  | timeoutFail (s : LockSys) (i j : Fin 2) :
      s.stat i = .trying → s.lockOwner = some j →
      LockStep s ⟨s.lockOwner, Function.update s.stat i .timedOutStat⟩
  | releaseDone (s : LockSys) (i : Fin 2) :
      s.stat i = .holding →
      LockStep s ⟨none, Function.update s.stat i .released⟩

/-- States reachable from the initial state by interleaving. -/
def LockReach (s : LockSys) : Prop :=
  Relation.ReflTransGen LockStep initLockSys s

/-- A process holds the lock only if the lock file names it as owner. -/
def LockInv (s : LockSys) : Prop :=
  ∀ i, s.stat i = .holding → s.lockOwner = some i

/-- A manifest of 501 snapshot records whose newest 500 are all
`pre_restore`: the single restorable snapshot is the oldest one. -/
def deepManifest : List Record :=
  { record_type := "snapshot", revision_id := "keep", action_type := "checkpoint" } ::
    List.replicate 500
      { record_type := "snapshot", revision_id := "pre", action_type := "pre_restore" }

/-- Integrity of a state, the invariant `create_snapshot` establishes and
the spec records for snapshot files: every snapshot record of the manifest
whose file is present in the store has a stored-file digest equal to its
recorded `snapshot_sha256`. -/
def WfB (h : Hash) (s : Sys) : Bool :=
  s.manifest.all fun r =>
    !(r.record_type == "snapshot") ||
      (match getFile s.snaps r.snapshot_path with
       | some b => h b == r.snapshot_sha256
       | none => true)

/-- A one-snapshot fixture record used to instantiate theorems on concrete
inputs. -/
def fixtureRec : Record :=
  { record_type := "snapshot", revision_id := "r1",
    snapshot_path := "r1__survey.xlsx", snapshot_sha256 := "H" }

/-- A fixture state holding `fixtureRec` and its snapshot file. -/
def fixtureSys : Sys :=
  { doc := some [9], snaps := [("r1__survey.xlsx", [7])],
    manifest := [fixtureRec] }

lemma lockInv_init : LockInv initLockSys := by
  intro i h
  simp [initLockSys] at h

lemma lockInv_step {s s' : LockSys} (hs : LockInv s) (hstep : LockStep s s') :
    LockInv s' := by
  cases hstep with
  | acquireOk i hi hnone =>
    intro i' hi'
    simp only [Function.update_apply] at hi'
    by_cases hcase : i' = i
    · simp [hcase]
    · simp only [hcase, if_false] at hi'
      have := hs i' hi'
      rw [hnone] at this
      exact Option.noConfusion this
  | poll i j hi hj => exact hs
  | timeoutFail i j hi hj =>
    intro i' hi'
    simp only [Function.update_apply] at hi'
    by_cases hcase : i' = i
    · simp [hcase] at hi'
    · simp only [hcase, if_false] at hi'
      exact hs i' hi'
  | releaseDone i hi =>
    intro i' hi'
    simp only [Function.update_apply] at hi'
    by_cases hcase : i' = i
    · simp [hcase] at hi'
    · simp only [hcase, if_false] at hi'
      have h1 := hs i' hi'
      have h2 := hs i hi
      rw [h1] at h2
      exact absurd (Option.some.inj h2) hcase

lemma lockInv_reach {s : LockSys} (hs : LockReach s) : LockInv s := by
  induction hs with
  | refl => exact lockInv_init
  | tail _ hstep ih => exact lockInv_step ih hstep

lemma find?_true_eq_head? {α : Type _} (l : List α) :
    List.find? (fun _ => true) l = l.head? := by
  cases l <;> rfl

lemma head?_take_succ {α : Type _} (n : Nat) (l : List α) :
    (List.take (n + 1) l).head? = l.head? := by
  cases l <;> simp

/-- C8 counterexample: with `limit = 0` and a two-snapshot manifest,
`list_snapshots` returns one record, not at most zero; and on a manifest
whose records carry out-of-order timestamps the result is in reverse
append order, which is not strictly descending by timestamp. -/
theorem list_snapshots_claim_cex :
    (list_snapshots
        [{ record_type := "snapshot", timestamp := 2, revision_id := "a" },
         { record_type := "snapshot", timestamp := 1, revision_id := "b" }] 0).length = 1 ∧
    ¬ ((list_snapshots
        [{ record_type := "snapshot", timestamp := 2, revision_id := "a" },
         { record_type := "snapshot", timestamp := 1, revision_id := "b" }] 0).length
       ≤ (0 : Int).toNat) ∧
    ¬ (list_snapshots
        [{ record_type := "snapshot", timestamp := 2, revision_id := "a" },
         { record_type := "snapshot", timestamp := 1, revision_id := "b" }] 1000).Pairwise
        (fun a b => b.timestamp < a.timestamp) := by
  refine ⟨by decide, by decide, ?_⟩
  rw [show list_snapshots
        [{ record_type := "snapshot", timestamp := 2, revision_id := "a" },
         { record_type := "snapshot", timestamp := 1, revision_id := "b" }] 1000 =
      [{ record_type := "snapshot", timestamp := 1, revision_id := "b" },
       { record_type := "snapshot", timestamp := 2, revision_id := "a" }] from by decide]
  intro h
  have := List.rel_of_pairwise_cons h (List.mem_singleton.mpr rfl)
  simp at this

/-- C8 (amended): `list_snapshots(limit)` returns a newest-first selection of
the manifest's snapshot records — every returned record is a snapshot record
of the manifest; the result is a prefix of the reversed (newest-first)
snapshot sublist; at most `max(limit, 1)` records are returned; all snapshot
records are returned when they number at most `max(limit, 1)`; and the order
is strictly descending by timestamp whenever the manifest's snapshot records
have strictly increasing timestamps in file order. -/
theorem list_snapshots_spec (m : List Record) (limit : Int) :
    (∀ r ∈ list_snapshots m limit, r ∈ m ∧ r.record_type = "snapshot") ∧
    (list_snapshots m limit).length ≤ (max limit 1).toNat ∧
    list_snapshots m limit <+: (m.filter isSnap).reverse ∧
    ((m.filter isSnap).length ≤ (max limit 1).toNat →
      list_snapshots m limit = (m.filter isSnap).reverse) ∧
    ((m.filter isSnap).Pairwise (fun a b => a.timestamp < b.timestamp) →
      (list_snapshots m limit).Pairwise (fun a b => b.timestamp < a.timestamp)) := by
  refine ⟨?_, ?_, ?_, ?_, ?_⟩
  · intro r hr
    have hrev : r ∈ (m.filter isSnap).reverse := List.take_subset _ _ hr
    have hfil : r ∈ m.filter isSnap := List.mem_reverse.mp hrev
    have := List.mem_filter.mp hfil
    exact ⟨this.1, by simpa [isSnap, beq_iff_eq] using this.2⟩
  · exact List.length_take_le _ _
  · exact List.take_prefix _ _
  · intro hlen
    exact List.take_of_length_le (by rwa [List.length_reverse])
  · intro hpair
    have hrev : ((m.filter isSnap).reverse).Pairwise (fun a b => b.timestamp < a.timestamp) :=
      List.pairwise_reverse.mpr hpair
    exact hrev.sublist (List.take_sublist _ _)

/-- C8 witness: on a concrete two-snapshot manifest with limit 5 the
amended specification yields the full reversed snapshot list. -/
theorem list_snapshots_spec_witness :
    list_snapshots
        [{ record_type := "snapshot", timestamp := 1, revision_id := "old" },
         { record_type := "snapshot", timestamp := 2, revision_id := "new" }] 5 =
      [{ record_type := "snapshot", timestamp := 2, revision_id := "new" },
       { record_type := "snapshot", timestamp := 1, revision_id := "old" }] := by
  have h := (list_snapshots_spec
    [{ record_type := "snapshot", timestamp := 1, revision_id := "old" },
     { record_type := "snapshot", timestamp := 2, revision_id := "new" }] 5).2.2.2.1
    (by decide)
  rw [h]
  decide

/-- C7 counterexample: `get_latest_snapshot` reads only
`list_snapshots(limit=500)`, so on a manifest whose newest 500 snapshot
records are all `pre_restore` it returns `None` even though an older
non-`pre_restore` snapshot record exists. -/
theorem get_latest_snapshot_claim_cex :
    get_latest_snapshot deepManifest false = none ∧
    ({ record_type := "snapshot", revision_id := "keep",
       action_type := "checkpoint" } : Record) ∈ deepManifest ∧
    ({ record_type := "snapshot", revision_id := "keep",
       action_type := "checkpoint" } : Record).record_type = "snapshot" ∧
    ({ record_type := "snapshot", revision_id := "keep",
       action_type := "checkpoint" } : Record).action_type ≠ "pre_restore" := by
  refine ⟨?_, List.mem_cons_self _ _, rfl, by decide⟩
  have hfil : deepManifest.filter isSnap = deepManifest :=
    List.filter_eq_self.mpr (by
      intro a ha
      rcases List.mem_cons.mp ha with h | h
      · subst h; rfl
      · rw [(List.mem_replicate.mp h).2]; rfl)
  have hrev : deepManifest.reverse =
      List.replicate 500
        { record_type := "snapshot", revision_id := "pre", action_type := "pre_restore" } ++
      [{ record_type := "snapshot", revision_id := "keep", action_type := "checkpoint" }] := by
    rw [deepManifest, List.reverse_cons, List.reverse_replicate]
  have htake : list_snapshots deepManifest 500 =
      List.replicate 500
        { record_type := "snapshot", revision_id := "pre", action_type := "pre_restore" } := by
    rw [list_snapshots, hfil, hrev,
      show ((max (500 : Int) 1).toNat) = 500 from by decide]
    exact List.take_left' (List.length_replicate _ _)
  rw [get_latest_snapshot, htake]
  apply List.find?_eq_none.mpr
  intro x hx
  rw [(List.mem_replicate.mp hx).2]
  decide

/-- C7 (amended): `get_latest_snapshot(include_pre_restore=True)` returns
the newest snapshot record of the manifest, or `None` when there is none;
`get_latest_snapshot(include_pre_restore=False)` never returns a
`pre_restore` record and always returns a snapshot record of the manifest;
and whenever the manifest holds at most 500 snapshot records it returns the
newest one whose `action_type` is not `"pre_restore"`, or `None` when no
such record exists among them. -/
theorem get_latest_snapshot_spec (m : List Record) :
    get_latest_snapshot m true = (m.filter isSnap).getLast? ∧
    (∀ r, get_latest_snapshot m false = some r →
      r.action_type ≠ "pre_restore" ∧ r.record_type = "snapshot" ∧ r ∈ m) ∧
    ((m.filter isSnap).length ≤ 500 →
      get_latest_snapshot m false =
        (m.filter isSnap).reverse.find? (fun r => !(r.action_type == "pre_restore"))) := by
  refine ⟨?_, ?_, ?_⟩
  · rw [get_latest_snapshot]
    simp only [Bool.true_or]
    rw [find?_true_eq_head?, list_snapshots,
      show ((max (500 : Int) 1).toNat) = 499 + 1 from by decide,
      head?_take_succ, List.head?_reverse]
  · intro r hr
    rw [get_latest_snapshot] at hr
    have hp := List.find?_some hr
    have hm := List.mem_of_find?_eq_some hr
    have hmem : r ∈ m.filter isSnap :=
      List.mem_reverse.mp (List.take_subset _ _ hm)
    have hf := List.mem_filter.mp hmem
    refine ⟨?_, by simpa [isSnap, beq_iff_eq] using hf.2, hf.1⟩
    simp only [Bool.false_or, Bool.not_eq_true', beq_eq_false_iff_ne] at hp
    exact hp
  · intro hlen
    rw [get_latest_snapshot, list_snapshots,
      show ((max (500 : Int) 1).toNat) = 500 from by decide,
      List.take_of_length_le (by rwa [List.length_reverse])]
    simp only [Bool.false_or]

/-- C7 witness: on a concrete manifest ending in a `pre_restore` snapshot,
the amended specification returns the older checkpoint snapshot. -/
theorem get_latest_snapshot_spec_witness :
    get_latest_snapshot
      [{ record_type := "snapshot", timestamp := 1, revision_id := "c",
         action_type := "checkpoint" },
       { record_type := "snapshot", timestamp := 2, revision_id := "p",
         action_type := "pre_restore" }] false =
      some { record_type := "snapshot", timestamp := 1, revision_id := "c",
             action_type := "checkpoint" } := by
  have h := (get_latest_snapshot_spec
    [{ record_type := "snapshot", timestamp := 1, revision_id := "c",
       action_type := "checkpoint" },
     { record_type := "snapshot", timestamp := 2, revision_id := "p",
       action_type := "pre_restore" }]).2.2 (by decide)
  rw [h]
  decide

/-- C10: `release_lock` always returns normally (every exception of the
unlink is swallowed), and it deletes the lock file whenever one exists —
regardless of the pid or payload the lock file records — while leaving the
document, the snapshot store, the manifest, and the open-workbook state
untouched. -/
theorem release_lock_spec (s : Sys) :
    (release_lock s).1 = .ok () ∧
    (release_lock s).2.lock = none ∧
    (release_lock s).2.doc = s.doc ∧
    (release_lock s).2.docName = s.docName ∧
    (release_lock s).2.snaps = s.snaps ∧
    (release_lock s).2.manifest = s.manifest ∧
    (release_lock s).2.live = s.live ∧
    (∀ body, s.lock = some body → (release_lock s).2.lock = none) :=
  ⟨rfl, rfl, rfl, rfl, rfl, rfl, rfl, fun _ _ => rfl⟩

/-- C10 witness: releasing a lock recorded by some other process's pid
still deletes it and reports no failure. -/
theorem release_lock_spec_witness :
    (release_lock { lock := some "pid 424242" }).2.lock = none :=
  (release_lock_spec { lock := some "pid 424242" }).2.2.2.2.2.2.2 "pid 424242" rfl

/-- C1: `create_snapshot` fails with document-not-found and changes nothing
when the target document is absent; on success the returned record is
appended to the manifest, a file exists in the snapshot store at the
recorded `snapshot_path`, and that file's digest equals the record's
`snapshot_sha256`. -/
theorem create_snapshot_spec (h : Hash) (now : Nat)
    (aty de dt cm ag rid : String) (s : Sys) :
    (s.doc = none →
      create_snapshot h now rid aty de dt cm ag s =
        (.error (.documentNotFound ("XLSForm file not found: " ++ s.docName)), s)) ∧
    (∀ b, s.doc = some b →
      ∃ rec, (create_snapshot h now rid aty de dt cm ag s).1 = .ok rec ∧
        (create_snapshot h now rid aty de dt cm ag s).2.manifest =
          s.manifest ++ [rec] ∧
        ∃ bytes,
          getFile (create_snapshot h now rid aty de dt cm ag s).2.snaps
            rec.snapshot_path = some bytes ∧
          h bytes = rec.snapshot_sha256) := by
  constructor
  · intro hnone
    simp [create_snapshot, hnone]
  · intro b hb
    simp only [create_snapshot, hb]
    refine ⟨_, rfl, rfl, _, ?_, rfl⟩
    simp [getFile, List.find?_cons]

/-- C1 witness: a concrete snapshot of a two-byte document under a fixed
digest function. -/
theorem create_snapshot_spec_witness :
    ∃ rec,
      (create_snapshot (fun _ => "H") 7 "r1" "edit" "d" "" "" ""
        { doc := some [1, 2] }).1 = .ok rec ∧
      (create_snapshot (fun _ => "H") 7 "r1" "edit" "d" "" "" ""
        { doc := some [1, 2] }).2.manifest =
        ({ doc := some [1, 2] } : Sys).manifest ++ [rec] ∧
      ∃ bytes,
        getFile (create_snapshot (fun _ => "H") 7 "r1" "edit" "d" "" "" ""
          { doc := some [1, 2] }).2.snaps rec.snapshot_path = some bytes ∧
        (fun _ => "H" : Hash) bytes = rec.snapshot_sha256 :=
  (create_snapshot_spec (fun _ => "H") 7 "edit" "d" "" "" "" "r1"
    { doc := some [1, 2] }).2 [1, 2] rfl

lemma getFile_cons (k k' : String) (v : Bytes) (fs : List (String × Bytes)) :
    getFile ((k, v) :: fs) k' = if k == k' then some v else getFile fs k' := by
  cases hk : (k == k') <;> simp [getFile, List.find?_cons, hk]

lemma restore_snapshot_isOk (h : Hash) (nowPre nowEvt : Nat) (preRid rid : String)
    (cp : Bool) (s : Sys) (rec : Record) (bytes : Bytes)
    (hrec : get_snapshot s.manifest rid = some rec)
    (hbytes : getFile s.snaps rec.snapshot_path = some bytes) :
    ∃ res, (restore_snapshot h nowPre nowEvt preRid rid cp s).1 = .ok res := by
  simp only [restore_snapshot, hrec, hbytes]
  by_cases hcp : (cp && s.doc.isSome) = true
  · have hdoc : s.doc.isSome = true := by
      by_contra hne
      rw [Bool.not_eq_true] at hne
      rw [hne, Bool.and_false] at hcp
      cases hcp
    obtain ⟨db, hdb⟩ := Option.isSome_iff_exists.mp hdoc
    rw [if_pos hcp]
    simp only [create_snapshot, hdb, getFile_cons]
    by_cases hbq : ((preRid ++ "__" ++ s.docName == rec.snapshot_path) = true)
    · rw [if_pos hbq]
      exact ⟨_, rfl⟩
    · rw [if_neg hbq, hbytes]
      exact ⟨_, rfl⟩
  · rw [if_neg hcp]
    simp only [hbytes]
    exact ⟨_, rfl⟩

/-- C4: `restore_snapshot` raises revision-not-found exactly when no
snapshot record with the requested revision id exists, raises
snapshot-missing exactly when such a record exists but the snapshot file is
absent from the store, and in either failure case leaves the entire state —
document, manifest, snapshot store, lock, open workbook — unchanged. -/
theorem restore_errors_spec (h : Hash) (nowPre nowEvt : Nat)
    (preRid rid : String) (cp : Bool) (s : Sys) :
    ((∃ m, (restore_snapshot h nowPre nowEvt preRid rid cp s).1 =
        .error (.revisionNotFound m)) ↔
      get_snapshot s.manifest rid = none) ∧
    ((∃ m, (restore_snapshot h nowPre nowEvt preRid rid cp s).1 =
        .error (.snapshotMissing m)) ↔
      ∃ rec, get_snapshot s.manifest rid = some rec ∧
        getFile s.snaps rec.snapshot_path = none) ∧
    (∀ m, (restore_snapshot h nowPre nowEvt preRid rid cp s).1 =
        .error (.revisionNotFound m) →
      (restore_snapshot h nowPre nowEvt preRid rid cp s).2 = s) ∧
    (∀ m, (restore_snapshot h nowPre nowEvt preRid rid cp s).1 =
        .error (.snapshotMissing m) →
      (restore_snapshot h nowPre nowEvt preRid rid cp s).2 = s) := by
  cases hrec : get_snapshot s.manifest rid with
  | none =>
    have hres : restore_snapshot h nowPre nowEvt preRid rid cp s =
        (.error (.revisionNotFound ("Revision not found: " ++ rid)), s) := by
      simp only [restore_snapshot, hrec]
    refine ⟨iff_of_true ⟨_, by rw [hres]⟩ rfl, ?_,
      fun m hm => by rw [hres], fun m hm => by rw [hres]⟩
    constructor
    · rintro ⟨m, hm⟩
      rw [hres] at hm
      exact absurd (Except.error.inj hm) (by intro hh; cases hh)
    · rintro ⟨rec, hrec2, -⟩
      cases hrec2
  | some rec =>
    cases hbytes : getFile s.snaps rec.snapshot_path with
    | none =>
      have hres : restore_snapshot h nowPre nowEvt preRid rid cp s =
          (.error (.snapshotMissing
            ("Snapshot file missing: " ++ rec.snapshot_path)), s) := by
        simp only [restore_snapshot, hrec, hbytes]
      refine ⟨?_, iff_of_true ⟨_, by rw [hres]⟩ ⟨rec, rfl, hbytes⟩,
        fun m hm => by rw [hres], fun m hm => by rw [hres]⟩
      constructor
      · rintro ⟨m, hm⟩
        rw [hres] at hm
        exact absurd (Except.error.inj hm) (by intro hh; cases hh)
      · intro hh
        cases hh
    | some bytes =>
      obtain ⟨res, hok⟩ :=
        restore_snapshot_isOk h nowPre nowEvt preRid rid cp s rec bytes hrec hbytes
      refine ⟨?_, ?_, ?_, ?_⟩
      · constructor
        · rintro ⟨m, hm⟩
          rw [hok] at hm
          cases hm
        · intro hh
          cases hh
      · constructor
        · rintro ⟨m, hm⟩
          rw [hok] at hm
          cases hm
        · rintro ⟨rec2, hrec2, hfile2⟩
          cases hrec2
          rw [hbytes] at hfile2
          cases hfile2
      · intro m hm
        rw [hok] at hm
        cases hm
      · intro m hm
        rw [hok] at hm
        cases hm

/-- C4 witness: restoring an unknown revision from an empty history fails
with revision-not-found and leaves the (empty) state untouched. -/
theorem restore_errors_spec_witness :
    (restore_snapshot (fun _ => "H") 0 0 "p" "nope" true {}).2 = ({} : Sys) :=
  (restore_errors_spec (fun _ => "H") 0 0 "p" "nope" true {}).2.2.1
    ("Revision not found: nope") rfl

/-- C2 (round-trip law): for every `restore_snapshot(revision_id)` call on
an integral state where the revision's snapshot record exists and its file
is on disk — and the freshly generated pre-restore snapshot name does not
collide with the target's (revision ids are unique by construction) — the
call succeeds and afterwards the working document's digest equals the
record's `snapshot_sha256`. -/
theorem restore_round_trip (h : Hash) (nowPre nowEvt : Nat) (preRid rid : String)
    (cp : Bool) (s : Sys) (rec : Record) (bytes : Bytes)
    (hwf : WfB h s = true)
    (hrec : get_snapshot s.manifest rid = some rec)
    (hbytes : getFile s.snaps rec.snapshot_path = some bytes)
    (hfresh : (preRid ++ "__" ++ s.docName) ≠ rec.snapshot_path) :
    ∃ res s', restore_snapshot h nowPre nowEvt preRid rid cp s = (.ok res, s') ∧
      s'.doc = some bytes ∧ h bytes = rec.snapshot_sha256 := by
  have hpred := List.find?_some hrec
  have hmem := List.mem_of_find?_eq_some hrec
  have hsnap : (rec.record_type == "snapshot") = true :=
    (Bool.and_eq_true _ _ ▸ hpred).1
  have hdig : h bytes = rec.snapshot_sha256 := by
    have hall := List.all_eq_true.mp hwf rec hmem
    rw [hsnap] at hall
    simp only [Bool.not_true, Bool.false_or, hbytes] at hall
    exact beq_iff_eq.mp hall
  have hbq : ((preRid ++ "__" ++ s.docName) == rec.snapshot_path) = false :=
    beq_eq_false_iff_ne.mpr hfresh
  simp only [restore_snapshot, hrec, hbytes]
  by_cases hcp : (cp && s.doc.isSome) = true
  · have hdoc : s.doc.isSome = true := by
      by_contra hne
      rw [Bool.not_eq_true] at hne
      rw [hne, Bool.and_false] at hcp
      cases hcp
    obtain ⟨db, hdb⟩ := Option.isSome_iff_exists.mp hdoc
    rw [if_pos hcp]
    simp only [create_snapshot, hdb, getFile_cons, hbq, if_false, hbytes,
      append_event]
    exact ⟨_, _, rfl, rfl, hdig⟩
  · rw [if_neg hcp]
    simp only [hbytes, append_event]
    exact ⟨_, _, rfl, rfl, hdig⟩

/-- C2 witness: restoring a concrete one-snapshot history puts the
snapshot's bytes back into the document and its digest matches the record. -/
theorem restore_round_trip_witness :
    ∃ res s',
      restore_snapshot (fun b => if b = [7] then "h7" else "h0") 1 2 "r2" "r1" true
        { doc := some [9],
          snaps := [("r1__survey.xlsx", [7])],
          manifest := [{ record_type := "snapshot", revision_id := "r1",
                         snapshot_path := "r1__survey.xlsx",
                         snapshot_sha256 := "h7" }] } = (.ok res, s') ∧
      s'.doc = some [7] ∧
      (fun b => if b = [7] then "h7" else "h0" : Hash) [7] =
        ({ record_type := "snapshot", revision_id := "r1",
           snapshot_path := "r1__survey.xlsx",
           snapshot_sha256 := "h7" } : Record).snapshot_sha256 :=
  restore_round_trip (fun b => if b = [7] then "h7" else "h0") 1 2 "r2" "r1" true
    { doc := some [9],
      snaps := [("r1__survey.xlsx", [7])],
      manifest := [{ record_type := "snapshot", revision_id := "r1",
                     snapshot_path := "r1__survey.xlsx",
                     snapshot_sha256 := "h7" }] }
    { record_type := "snapshot", revision_id := "r1",
      snapshot_path := "r1__survey.xlsx", snapshot_sha256 := "h7" }
    [7] (by decide) rfl rfl (by decide)

/-- C3: when `restore_snapshot` runs with `create_pre_restore_snapshot=True`
and the target document exists (and the requested revision and its file are
present, so the restore proceeds), a snapshot tagged `pre_restore` stamped
with the fresh revision id is created whose stored bytes are the state just
before the restore — the open workbook's in-memory bytes when one exists,
else the on-disk document bytes — it is appended to the manifest before the
restore event, and the restore event's `pre_restore_revision` names it. -/
theorem pre_restore_spec (h : Hash) (nowPre nowEvt : Nat) (preRid rid : String)
    (s : Sys) (rec : Record) (bytes db : Bytes)
    (hrec : get_snapshot s.manifest rid = some rec)
    (hbytes : getFile s.snaps rec.snapshot_path = some bytes)
    (hdoc : s.doc = some db) :
    ∃ pre evt s', restore_snapshot h nowPre nowEvt preRid rid true s =
        (.ok ⟨rec, evt, some pre⟩, s') ∧
      pre.action_type = "pre_restore" ∧
      pre.revision_id = preRid ∧
      getFile s'.snaps pre.snapshot_path =
        some (match s.live with | some lb => lb | none => db) ∧
      s'.manifest = s.manifest ++ [pre, evt] ∧
      evt.record_type = "event" ∧
      evt.action_type = "restore" ∧
      evt.pre_restore_revision = pre.revision_id := by
  have hcp : (true && s.doc.isSome) = true := by rw [hdoc]; rfl
  cases hlive : s.live with
  | none =>
    simp only [restore_snapshot, hrec, hbytes]
    rw [if_pos hcp]
    simp only [create_snapshot, hdoc, hlive, getFile_cons, append_event]
    by_cases hbq : ((preRid ++ "__" ++ s.docName == rec.snapshot_path) = true)
    · rw [if_pos hbq]
      refine ⟨_, _, _, rfl, rfl, rfl, ?_, ?_, rfl, rfl, rfl⟩
      · simp [getFile_cons]
      · simp
    · rw [if_neg hbq, hbytes]
      refine ⟨_, _, _, rfl, rfl, rfl, ?_, ?_, rfl, rfl, rfl⟩
      · simp [getFile_cons]
      · simp
  | some lb =>
    simp only [restore_snapshot, hrec, hbytes]
    rw [if_pos hcp]
    simp only [create_snapshot, hdoc, hlive, getFile_cons, append_event]
    by_cases hbq : ((preRid ++ "__" ++ s.docName == rec.snapshot_path) = true)
    · rw [if_pos hbq]
      refine ⟨_, _, _, rfl, rfl, rfl, ?_, ?_, rfl, rfl, rfl⟩
      · simp [getFile_cons]
      · simp
    · rw [if_neg hbq, hbytes]
      refine ⟨_, _, _, rfl, rfl, rfl, ?_, ?_, rfl, rfl, rfl⟩
      · simp [getFile_cons]
      · simp

/-- C3 witness: a concrete restore takes a pre-restore snapshot of the
current document bytes and chains it into the restore event. -/
theorem pre_restore_spec_witness :
    ∃ pre evt s',
      restore_snapshot (fun _ => "H") 1 2 "r2" "r1" true fixtureSys =
        (.ok ⟨fixtureRec, evt, some pre⟩, s') ∧
      pre.action_type = "pre_restore" ∧
      pre.revision_id = "r2" ∧
      getFile s'.snaps pre.snapshot_path =
        some (match fixtureSys.live with | some lb => lb | none => [9]) ∧
      s'.manifest = fixtureSys.manifest ++ [pre, evt] ∧
      evt.record_type = "event" ∧
      evt.action_type = "restore" ∧
      evt.pre_restore_revision = pre.revision_id :=
  pre_restore_spec (fun _ => "H") 1 2 "r2" "r1" fixtureSys fixtureRec
    [7] [9] rfl rfl rfl

lemma acquireAux_spec (env : Nat → Option String) (lockPath : String)
    (timeout poll : Nat) :
    ∀ fuel k, timeout ≤ (k + fuel) * poll →
      (∀ m, acquireAux env lockPath timeout poll k fuel = .acquired m →
        k ≤ m ∧ env m = none ∧
        ∀ j, k ≤ j → j < m → env j ≠ none ∧ j * poll < timeout) ∧
      (∀ m msg, acquireAux env lockPath timeout poll k fuel = .timedOut m msg →
        k ≤ m ∧ timeout ≤ m * poll ∧
        (∀ j, k ≤ j → j < m → env j ≠ none ∧ j * poll < timeout) ∧
        ∃ d, env m = some d ∧ msg = timeoutMessage timeout lockPath d) ∧
      acquireAux env lockPath timeout poll k fuel ≠ .diverged := by
  intro fuel
  induction fuel with
  | zero =>
    intro k hk
    rw [Nat.add_zero] at hk
    cases henv : env k with
    | none =>
      refine ⟨?_, ?_, ?_⟩
      · intro m hm
        simp only [acquireAux, henv] at hm
        cases hm
        exact ⟨Nat.le_refl _, henv, fun j hj1 hj2 => absurd hj2 (by omega)⟩
      · intro m msg hm
        simp only [acquireAux, henv] at hm
        cases hm
      · simp only [acquireAux, henv]
        intro hm
        cases hm
    | some d =>
      have ht : timeout ≤ k * poll := hk
      refine ⟨?_, ?_, ?_⟩
      · intro m hm
        simp only [acquireAux, henv, if_pos ht] at hm
        cases hm
      · intro m msg hm
        simp only [acquireAux, henv, if_pos ht] at hm
        cases hm
        exact ⟨Nat.le_refl _, ht, fun j hj1 hj2 => absurd hj2 (by omega),
          d, henv, rfl⟩
      · simp only [acquireAux, henv, if_pos ht]
        intro hm
        cases hm
  | succ f ih =>
    intro k hk
    cases henv : env k with
    | none =>
      refine ⟨?_, ?_, ?_⟩
      · intro m hm
        simp only [acquireAux, henv] at hm
        cases hm
        exact ⟨Nat.le_refl _, henv, fun j hj1 hj2 => absurd hj2 (by omega)⟩
      · intro m msg hm
        simp only [acquireAux, henv] at hm
        cases hm
      · simp only [acquireAux, henv]
        intro hm
        cases hm
    | some d =>
      by_cases ht : timeout ≤ k * poll
      · refine ⟨?_, ?_, ?_⟩
        · intro m hm
          simp only [acquireAux, henv, if_pos ht] at hm
          cases hm
        · intro m msg hm
          simp only [acquireAux, henv, if_pos ht] at hm
          cases hm
          exact ⟨Nat.le_refl _, ht, fun j hj1 hj2 => absurd hj2 (by omega),
            d, henv, rfl⟩
        · simp only [acquireAux, henv, if_pos ht]
          intro hm
          cases hm
      · have hk2 : timeout ≤ (k + 1 + f) * poll := by
          have : k + 1 + f = k + (f + 1) := by omega
          rw [this]
          exact hk
        obtain ⟨ihA, ihT, ihD⟩ := ih (k + 1) hk2
        have hnt : ¬ timeout ≤ k * poll := ht
        refine ⟨?_, ?_, ?_⟩
        · intro m hm
          simp only [acquireAux, henv, if_neg hnt] at hm
          obtain ⟨h1, h2, h3⟩ := ihA m hm
          refine ⟨by omega, h2, ?_⟩
          intro j hj1 hj2
          rcases Nat.eq_or_lt_of_le hj1 with hje | hjl
          · subst hje
            exact ⟨(by rw [henv]; intro hh; cases hh), by omega⟩
          · exact h3 j (by omega) hj2
        · intro m msg hm
          simp only [acquireAux, henv, if_neg hnt] at hm
          obtain ⟨h1, h2, h3, hd⟩ := ihT m msg hm
          refine ⟨by omega, h2, ?_, hd⟩
          intro j hj1 hj2
          rcases Nat.eq_or_lt_of_le hj1 with hje | hjl
          · subst hje
            exact ⟨(by rw [henv]; intro hh; cases hh), by omega⟩
          · exact h3 j (by omega) hj2
        · simp only [acquireAux, henv, if_neg hnt]
          exact ihD

/-- C5: `acquire_lock` characterized.  An attempt succeeds exactly by
observing no lock file; every attempt before a success or a timeout saw a
lock file while the elapsed poll time was still below the timeout; a
timeout fires at the first attempt whose elapsed time reaches the bound and
its message embeds the existing lock file's recorded contents; with
positive poll the loop always ends; a first attempt that sees no lock file
succeeds immediately; and an `acquire_lock` that raises leaves the whole
state — in particular the lock file — unchanged. -/
theorem acquire_lock_loop_spec (env : Nat → Option String) (lockPath : String)
    (timeout poll : Nat) (hpoll : 0 < poll) :
    (∀ m, acquire_outcome env lockPath timeout poll = .acquired m →
      env m = none ∧ ∀ j, j < m → env j ≠ none ∧ j * poll < timeout) ∧
    (∀ m msg, acquire_outcome env lockPath timeout poll = .timedOut m msg →
      timeout ≤ m * poll ∧ (∀ j, j < m → env j ≠ none ∧ j * poll < timeout) ∧
      ∃ d, env m = some d ∧ msg = timeoutMessage timeout lockPath d) ∧
    acquire_outcome env lockPath timeout poll ≠ .diverged ∧
    (env 0 = none → acquire_outcome env lockPath timeout poll = .acquired 0) ∧
    (∀ s body t p e, (acquire_lock s body t p).1 = .error e →
      (acquire_lock s body t p).2 = s) := by
  have hb : timeout ≤ (0 + (timeout / poll + 1)) * poll := by
    have h1 := Nat.div_add_mod timeout poll
    have h2 := Nat.mod_lt timeout hpoll
    calc timeout = poll * (timeout / poll) + timeout % poll := h1.symm
      _ ≤ poll * (timeout / poll) + poll := by omega
      _ = (0 + (timeout / poll + 1)) * poll := by ring
  obtain ⟨hA, hT, hD⟩ := acquireAux_spec env lockPath timeout poll
    (timeout / poll + 1) 0 hb
  refine ⟨?_, ?_, hD, ?_, ?_⟩
  · intro m hm
    obtain ⟨-, h2, h3⟩ := hA m hm
    exact ⟨h2, fun j hj => h3 j (Nat.zero_le _) hj⟩
  · intro m msg hm
    obtain ⟨-, h2, h3, hd⟩ := hT m msg hm
    exact ⟨h2, fun j hj => h3 j (Nat.zero_le _) hj, hd⟩
  · intro henv
    simp only [acquire_outcome, acquireAux, henv]
  · intro s body t p e he
    cases hout : acquire_outcome (fun _ => s.lock) lockPathName t p with
    | acquired m =>
      rw [acquire_lock, hout] at he
      cases he
    | timedOut m msg =>
      rw [acquire_lock, hout]
    | diverged =>
      rw [acquire_lock, hout]

/-- C5 witness: with the lock held by another process throughout, a call
with two time ticks of timeout and one tick of poll interval times out at
the attempt whose elapsed time reaches the bound, and the lock contents
appear in the failure message. -/
theorem acquire_lock_loop_spec_witness :
    (2 : Nat) ≤ 2 * 1 ∧
    ∃ d, (some "pid 7" : Option String) = some d ∧
      timeoutMessage 2 lockPathName "pid 7" = timeoutMessage 2 lockPathName d := by
  have h := (acquire_lock_loop_spec (fun _ => some "pid 7") lockPathName 2 1
    (by decide)).2.1 2 (timeoutMessage 2 lockPathName "pid 7") rfl
  exact ⟨h.1, h.2.2⟩

/-- C6: in every reachable interleaving of two processes contending for one
target document's lock, the two never hold the lock at overlapping times;
and while one process owns the lock file, no step lets the other process
reach the holding state — its contending attempt either polls on (still
trying) or fails with a timeout. -/
theorem lock_mutual_exclusion (s : LockSys) (hreach : LockReach s) :
    ¬ (s.stat 0 = .holding ∧ s.stat 1 = .holding) ∧
    (∀ s' i j, LockStep s s' → s.lockOwner = some i → j ≠ i →
      s.stat j = .trying → s'.stat j ≠ .holding) := by
  constructor
  · rintro ⟨h0, h1⟩
    have hinv := lockInv_reach hreach
    have e0 := hinv 0 h0
    have e1 := hinv 1 h1
    rw [e0] at e1
    have h01 : (0 : Fin 2) = 1 := Option.some.inj e1
    exact absurd h01 (by decide)
  · intro s' i j hstep hown hne hj
    cases hstep with
    | acquireOk k hk1 hk2 =>
      rw [hown] at hk2
      cases hk2
    | poll k l hk1 hk2 =>
      rw [hj]
      intro hh
      cases hh
    | timeoutFail k l hk1 hk2 =>
      intro hh
      simp only [Function.update_apply] at hh
      by_cases hjk : j = k
      · simp [hjk] at hh
      · simp only [hjk, if_false] at hh
        rw [hj] at hh
        cases hh
    | releaseDone k hk =>
      intro hh
      simp only [Function.update_apply] at hh
      by_cases hjk : j = k
      · simp [hjk] at hh
      · simp only [hjk, if_false] at hh
        rw [hj] at hh
        cases hh

/-- C6 witness: the initial state is reachable and satisfies mutual
exclusion. -/
theorem lock_mutual_exclusion_witness :
    ¬ (initLockSys.stat 0 = .holding ∧ initLockSys.stat 1 = .holding) :=
  (lock_mutual_exclusion initLockSys Relation.ReflTransGen.refl).1

lemma restore_by_revision_dry (h : Hash) (nowPre nowEvt : Nat)
    (preRid body : String) (s : Sys) (rid : String) :
    restore_by_revision h nowPre nowEvt preRid body s rid true =
      match get_snapshot s.manifest rid with
      | none => ⟨1, ["Error: Revision not found: " ++ rid], s⟩
      | some snapshot => ⟨0, dryRunLines snapshot, s⟩ := by
  unfold restore_by_revision
  cases get_snapshot s.manifest rid <;> rfl

/-- C9: a `--dry-run` invocation of any of the three CLI restore commands
leaves the state untouched (no lock acquired, no snapshot written, no
manifest record appended, document unmodified); its exit code and printed
output do not depend on the lock state at all, so a dry run never fails
from lock contention; and when the target revision exists and the document
is present it prints exactly the revision's metadata and exits 0. -/
theorem dry_run_spec (h : Hash) (nowPre nowEvt : Nat) (preRid body : String)
    (s : Sys) (rid : String) :
    (cmd_restore h nowPre nowEvt preRid body s rid true).state = s ∧
    (cmd_restore_last h nowPre nowEvt preRid body s true).state = s ∧
    (cmd_undo h nowPre nowEvt preRid body s true).state = s ∧
    (∀ lk,
      (cmd_restore h nowPre nowEvt preRid body { s with lock := lk } rid
          true).exitCode =
        (cmd_restore h nowPre nowEvt preRid body s rid true).exitCode ∧
      (cmd_restore h nowPre nowEvt preRid body { s with lock := lk } rid
          true).output =
        (cmd_restore h nowPre nowEvt preRid body s rid true).output) ∧
    (∀ rec, get_snapshot s.manifest rid = some rec → s.doc.isSome = true →
      cmd_restore h nowPre nowEvt preRid body s rid true =
        ⟨0, dryRunLines rec, s⟩) := by
  refine ⟨?_, ?_, ?_, ?_, ?_⟩
  · cases hdoc : s.doc with
    | none => simp only [cmd_restore, hdoc]
    | some b =>
      simp only [cmd_restore, hdoc, restore_by_revision_dry]
      cases get_snapshot s.manifest rid <;> rfl
  · cases hdoc : s.doc with
    | none => simp only [cmd_restore_last, hdoc]
    | some b =>
      simp only [cmd_restore_last, hdoc]
      cases get_latest_snapshot s.manifest false with
      | none => rfl
      | some latest =>
        simp only [restore_by_revision_dry]
        cases get_snapshot s.manifest latest.revision_id <;> rfl
  · cases hdoc : s.doc with
    | none => simp only [cmd_undo, hdoc]
    | some b =>
      simp only [cmd_undo, hdoc]
      cases get_latest_snapshot s.manifest true with
      | none => rfl
      | some latest =>
        simp only [restore_by_revision_dry]
        cases get_snapshot s.manifest latest.revision_id <;> rfl
  · intro lk
    cases hdoc : s.doc with
    | none =>
      simp only [cmd_restore, hdoc]
      constructor <;> trivial
    | some b =>
      simp only [cmd_restore, hdoc, restore_by_revision_dry]
      cases get_snapshot s.manifest rid <;> constructor <;> trivial
  · intro rec hrec hdocSome
    obtain ⟨b, hdoc⟩ := Option.isSome_iff_exists.mp hdocSome
    simp only [cmd_restore, hdoc, restore_by_revision_dry, hrec]

/-- C9 witness: a concrete dry run on a one-snapshot history with the lock
held by another process prints the metadata, exits 0, and changes nothing. -/
theorem dry_run_spec_witness :
    cmd_restore (fun _ => "H") 1 2 "r2" "me"
        { fixtureSys with lock := some "other" } "r1" true =
      ⟨0, dryRunLines fixtureRec, { fixtureSys with lock := some "other" }⟩ :=
  (dry_run_spec (fun _ => "H") 1 2 "r2" "me"
    { fixtureSys with lock := some "other" } "r1").2.2.2.2 fixtureRec rfl rfl

end XlsformHistory
